import Mathlib

/-!
Shallow embedding of `src/vimeo-download.py` (grantfreeman/vimeo-download).

The program is a linear pipeline: fetch a master.json manifest, resolve the
base URL by a network probe, select audio/video renditions by quality,
assemble each track from an init segment plus media segments, and mux the
two tracks with an external tool.

Modelling conventions:
* HTTP is an oracle `String → Nat × List Nat` (status code and body bytes);
  a bare status oracle `String → Nat` is used where only the status matters.
* `requests.Response.raise_for_status` raises exactly for 4xx/5xx statuses.
* Python exceptions are `Except PyError`.
* `tty_menu` is an oracle `List String → String → Nat` (options, title →
  chosen index).
* `base64.b64decode` is an oracle `String → List Nat` (the decoded bytes).
* Python's stable `list.sort()` is modelled by `List.insertionSort (· ≤ ·)`
  (stable ascending sort; on `Nat` lists any stable ascending sort agrees).
* The float bound `h * 0.95 ≤ v ≤ h * 1.05` is modelled exactly over ℚ
  scaled to ℕ: `0.95 = 19/20` and `1.05 = 21/20`, so the condition is
  `19*h ≤ 20*v ∧ 20*v ≤ 21*h`.
* The filesystem is a list of existing paths; the external muxer's own
  writes are outside the program and abstracted away.
-/

/-- Python exceptions raised by the script. -/
inductive PyError where
  | ValueError (msg : String)
  | IndexError
  | KeyError
  | HTTPError (status : Nat)
deriving DecidableEq

/-- One entry of a rendition's `segments` array: a relative URL fragment. -/
structure Segment where
  url : String
deriving DecidableEq

/-- One element of master.json's `video` array. -/
structure VideoRendition where
  id : String
  width : Nat
  height : Nat
  base_url : String
  init_segment : String
  segments : List Segment
deriving DecidableEq

/-- One element of master.json's `audio` array. -/
structure AudioRendition where
  id : String
  sample_rate : Nat
  bitrate : Nat
  base_url : String
  init_segment : String
  segments : List Segment
deriving DecidableEq

/-- The parsed master.json.  The top-level `base_url` key is modelled as an
`Option` because the spec calls it optional; the code accesses it with
`self.master_json['base_url']`, which raises `KeyError` when absent. -/
structure MasterJson where
  base_url : Option String
  video : List VideoRendition
  audio : List AudioRendition
deriving DecidableEq

/-- `AudioQuality` enum of the script: LOW = 0, MED = 1, HI = 2. -/
inductive AudioQuality where
  | LOW
  | MED
  | HI
deriving DecidableEq

/-- `.value` of the `AudioQuality` enum members. -/
def AudioQuality.value : AudioQuality → Nat
  | .LOW => 0
  | .MED => 1
  | .HI => 2

/-- `VideoQuality` enum of the script: named heights, `VMAX = 0` is the
"highest available" sentinel. -/
inductive VideoQuality where
  | V240
  | V360
  | V540
  | V720
  | V1080
  | V1440
  | V2160
  | VMAX
deriving DecidableEq

/-- `.value` of the `VideoQuality` enum members. -/
def VideoQuality.value : VideoQuality → Nat
  | .V240 => 240
  | .V360 => 360
  | .V540 => 540
  | .V720 => 720
  | .V1080 => 1080
  | .V1440 => 1440
  | .V2160 => 2160
  | .VMAX => 0

/-- First index at which `p` holds, as Python's `list.index` /
`for index, x in enumerate(l): if p(x): break` compute it. -/
def firstIdx {α : Type} (p : α → Bool) : List α → Option Nat
  | [] => none
  | a :: l => if p a then some 0 else (firstIdx p l).map (· + 1)

/-- Python's `list.index(x)`: first index holding `x`; `none` models the
`ValueError` raised when `x` is absent. -/
def pyIndex (l : List Nat) (x : Nat) : Option Nat :=
  firstIdx (fun y => y == x) l

/-- Python's ascending stable `list.sort()`. -/
def py_sort (l : List Nat) : List Nat :=
  List.insertionSort (· ≤ ·) l

/-- Python's `list.sort(reverse=True)` (on `Nat` values, the reverse of the
ascending sort). -/
def py_sort_desc (l : List Nat) : List Nat :=
  (py_sort l).reverse

/-- Characters of `u` up to and including the last `'/'` (empty when there
is no slash): Python's `url[:url.rfind('/') + 1]`. -/
def take_through_last_slash : List Char → List Char
  | [] => []
  | c :: rest =>
    if '/' ∈ rest then c :: take_through_last_slash rest
    else if c = '/' then [c] else []

/-- `self.master_json_url[:slash + 1]` where `slash = rfind('/')`. -/
def trimmed_url (u : String) : String :=
  String.mk (take_through_last_slash u.data)

/-- `requests.Response.raise_for_status()`: raises `HTTPError` exactly for
status codes in [400, 600). -/
def raise_for_status (status : Nat) : Except PyError Unit :=
  if 400 ≤ status ∧ status < 600 then .error (.HTTPError status) else .ok ()

/-- The `if response.status_code != 200` check of `__init__` (lines 60-62),
reached when the 410 check did not raise: print the generic message and call
`raise_for_status`; when it does not raise, fall through to
`response.json()` (the `parse` argument).  `msgs` holds what was already
printed. -/
def fetch_master_rest (status : Nat) (parse : Except PyError MasterJson)
    (msgs : List String) : List String × Except PyError MasterJson :=
  if status ≠ 200 then
    let msgs := msgs ++
      [s!"ERROR: received http code [{status}] when downloading master.json"]
    match raise_for_status status with
    | .error e => (msgs, .error e)
    | .ok _ => (msgs, parse)
  else (msgs, parse)

/-- The master.json fetch step of `VimeoDownload.__init__` (lines 55-63):
given the response status and the result of `response.json()`, returns the
printed error messages and the outcome. -/
def fetch_master (status : Nat) (parse : Except PyError MasterJson) :
    List String × Except PyError MasterJson :=
  if status = 410 then
    let msgs :=
      [s!"ERROR: http code [{status}]. master.json expired, please update url and rerun."]
    match raise_for_status status with
    | .error e => (msgs, .error e)
    | .ok _ => fetch_master_rest status parse msgs
  else
    fetch_master_rest status parse []

/-- The base-URL resolution step of `VimeoDownload.__init__` (lines 65-81):
probe `trimmed ++ master.base_url ++ video[0].base_url ++
video[0].segments[0].url`; on status 200 keep the shared `base_url`
fragment, otherwise drop it.  `http` maps a URL to the probe's status.
Failures occur in the source's evaluation order: line 70 reads
`master_json['video'][0]` first (IndexError on an empty video list), then
the URL expression reads `master_json['base_url']` (KeyError when the key
is absent), then `test_video['segments'][0]` (IndexError when the first
rendition has no segments). -/
def generate_base_url (http : String → Nat) (master_json_url : String)
    (m : MasterJson) : Except PyError String := do
  let t := trimmed_url master_json_url
  let test_video ← match m.video.head? with
    | some v => pure v
    | none => .error .IndexError
  let mb ← match m.base_url with
    | some mb => pure mb
    | none => .error .KeyError
  let seg0 ← match test_video.segments.head? with
    | some s => pure s
    | none => .error .IndexError
  let status := http (t ++ mb ++ test_video.base_url ++ seg0.url)
  if status = 200 then pure (t ++ mb) else pure t

/-- `[video['width'] for video in master_json['video']]` -/
def list_widths (m : MasterJson) : List Nat :=
  m.video.map (·.width)

/-- `[video['height'] for video in master_json['video']]` -/
def list_heights (m : MasterJson) : List Nat :=
  m.video.map (·.height)

/-- `[audio['sample_rate'] for audio in master_json['audio']]` -/
def list_sample_rates (m : MasterJson) : List Nat :=
  m.audio.map (·.sample_rate)

/-- `[audio['bitrate'] for audio in master_json['audio']]` -/
def list_bitrates (m : MasterJson) : List Nat :=
  m.audio.map (·.bitrate)

/-- The menu options built by `_ask_audio_quality`: sample rates sorted
descending and bitrates sorted descending, zipped positionally into
`"sample/bitrate"` strings (both lists have the length of the audio list). -/
def audio_menu_options (m : MasterJson) : List String :=
  let samples := py_sort_desc (list_sample_rates m)
  let bitrates := py_sort_desc (list_bitrates m)
  (List.range samples.length).map
    (fun index => s!"{samples.getD index 0}/{bitrates.getD index 0}")

/-- `_ask_audio_quality`: show the menu, return the bitrate at the chosen
index of the descending-sorted bitrate list. -/
def ask_audio_quality (menu : List String → String → Nat) (m : MasterJson) :
    Except PyError Nat :=
  let bitrates := py_sort_desc (list_bitrates m)
  let index := menu (audio_menu_options m) "Audio Quality? (sample_rate/bitrate)"
  match bitrates.get? index with
  | some b => .ok b
  | none => .error .IndexError

/-- The menu options built by `_ask_video_quality`: heights sorted
descending and widths sorted descending, zipped positionally into
`"widthxheight"` strings. -/
def video_menu_options (m : MasterJson) : List String :=
  let heights := py_sort_desc (list_heights m)
  let widths := py_sort_desc (list_widths m)
  (List.range heights.length).map
    (fun index => s!"{widths.getD index 0}x{heights.getD index 0}")

/-- `_ask_video_quality`: show the menu, return the height at the chosen
index of the descending-sorted height list. -/
def ask_video_quality (menu : List String → String → Nat) (m : MasterJson) :
    Except PyError Nat :=
  let heights := py_sort_desc (list_heights m)
  let index := menu (video_menu_options m) "Video Quality? (width x height)"
  match heights.get? index with
  | some h => .ok h
  | none => .error .IndexError

/-- The audio half of `configure_quality` (lines 175-184): interactive when
no tier is given; otherwise sort bitrates ascending and take `bitrates[-1]`
for HI, `bitrates[tier.value]` for LOW/MED. -/
def process_audio (menu : List String → String → Nat)
    (audio_quality : Option AudioQuality) (m : MasterJson) :
    Except PyError Nat :=
  match audio_quality with
  | none => ask_audio_quality menu m
  | some aq =>
    let bitrates := py_sort (list_bitrates m)
    if aq = .HI then
      match bitrates.getLast? with
      | some b => .ok b
      | none => .error .IndexError
    else
      match bitrates.get? aq.value with
      | some b => .ok b
      | none => .error .IndexError

/-- Lines 186-188: `index = self.list_bitrates().index(bitrate)` and
`self.audio_json = self.master_json['audio'][index]`. -/
def set_audio (m : MasterJson) (bitrate : Nat) :
    Except PyError AudioRendition :=
  match pyIndex (list_bitrates m) bitrate with
  | none => .error (.ValueError "x not in list")
  | some index =>
    match m.audio.get? index with
    | some r => .ok r
    | none => .error .IndexError

/-- The float comparison `(height * 0.95) <= v <= (height * 1.05)` of line
202, exactly: `0.95 = 19/20`, `1.05 = 21/20`, both sides scaled by 20. -/
def in_fuzzy_range (height v : Nat) : Bool :=
  (19 * height ≤ 20 * v) && (20 * v ≤ 21 * height)

/-- The fuzzy-search loop of lines 199-204: first index whose height is
within the ±5% band of the requested value. -/
def fuzzy_position (heights : List Nat) (v : Nat) : Option Nat :=
  firstIdx (fun height => in_fuzzy_range height v) heights

/-- The video half of `configure_quality` (lines 190-214): interactive when
no quality is given; `VMAX` takes the maximum height; an exact height match
is used directly; otherwise the fuzzy search runs and, failing that, either
the interactive fallback or a `ValueError` naming the requested height. -/
def process_video (menu : List String → String → Nat)
    (interactive_fallback : Bool) (video_quality : Option VideoQuality)
    (m : MasterJson) : Except PyError Nat :=
  match video_quality with
  | none => ask_video_quality menu m
  | some vq =>
    if vq = .VMAX then
      match list_heights m with
      | [] => .error (.ValueError "max() arg is an empty sequence")
      | h :: t => .ok (t.foldl max h)
    else if (list_heights m).contains vq.value then
      .ok vq.value
    else
      match fuzzy_position (list_heights m) vq.value with
      | some position =>
        match (list_heights m).get? position with
        | some h => .ok h
        | none => .error .IndexError
      | none =>
        if interactive_fallback then
          ask_video_quality menu m
        else
          .error (.ValueError s!"Unable to find video quality matching {vq.value}p")

/-- Lines 216-218: `index = self.list_heights().index(height)` and
`self.video_json = self.master_json['video'][index]`. -/
def set_video (m : MasterJson) (height : Nat) :
    Except PyError VideoRendition :=
  match pyIndex (list_heights m) height with
  | none => .error (.ValueError "x not in list")
  | some index =>
    match m.video.get? index with
    | some r => .ok r
    | none => .error .IndexError

/-- `configure_quality` (lines 139-223): precondition check, then audio
selection and binding, then video selection and binding. -/
def configure_quality (menu : List String → String → Nat)
    (interactive_fallback : Bool) (audio_quality : Option AudioQuality)
    (video_quality : Option VideoQuality) (m : MasterJson) :
    Except PyError (AudioRendition × VideoRendition) := do
  if interactive_fallback = false ∧ (audio_quality = none ∨ video_quality = none) then
    .error (.ValueError "Must provide audio and video quality when interactive == False")
  let bitrate ← process_audio menu audio_quality m
  let audio_json ← set_audio m bitrate
  let height ← process_video menu interactive_fallback video_quality m
  let video_json ← set_video m height
  pure (audio_json, video_json)

/-- Segment URL construction of `download_audio_video` (lines 236, 244,
257, 264): `self.base_url + rendition['base_url'] + segment['url']`. -/
def segment_url (base_url rend_base : String) (seg : Segment) : String :=
  base_url ++ rend_base ++ seg.url

/-- The per-segment loop of `download_audio_video` (lines 243-251 for audio,
263-270 for video; the two loops are textually identical): for each segment
in manifest order, fetch its URL; on a non-200 status print and call
`raise_for_status`; when no exception is raised, append the full response
body to the bytes written so far.  `fetch` maps a URL to (status, body). -/
def write_segments (fetch : String → Nat × List Nat)
    (base_url rend_base : String) (file : List Nat) :
    List Segment → Except PyError (List Nat)
  | [] => .ok file
  | seg :: rest =>
    let response := fetch (segment_url base_url rend_base seg)
    match (if response.1 ≠ 200 then raise_for_status response.1 else .ok ()) with
    | .error e => .error e
    | .ok _ => write_segments fetch base_url rend_base (file ++ response.2) rest

/-- One track of `download_audio_video`: write the base64-decoded
`init_segment` first, then every segment body in manifest order.  `decode`
is the `base64.b64decode` oracle. -/
def assemble_track (fetch : String → Nat × List Nat)
    (decode : String → List Nat) (base_url rend_base : String)
    (init_segment : String) (segments : List Segment) :
    Except PyError (List Nat) :=
  write_segments fetch base_url rend_base (decode init_segment) segments

/-- `download_audio_video` (lines 225-274), abstracted to the bytes written
to the two track files: audio track first, then video track. -/
def download_audio_video_bytes (fetch : String → Nat × List Nat)
    (decode : String → List Nat) (base_url : String)
    (audio_json : AudioRendition) (video_json : VideoRendition) :
    Except PyError (List Nat × List Nat) := do
  let audio ← assemble_track fetch decode base_url audio_json.base_url
    audio_json.init_segment audio_json.segments
  let video ← assemble_track fetch decode base_url video_json.base_url
    video_json.init_segment video_json.segments
  pure (audio, video)

/-- `combine_audio_video` (lines 276-291) over an abstract filesystem
(`disk` is the list of existing paths).  `call_exit` is the exit status
returned by `subprocess.call` for the ffmpeg command; the code discards it.
After the call, `os.remove` deletes both track files unconditionally.  The
external tool's own writes are outside the program and not modelled.
Returns the resulting disk contents. -/
def combine_audio_video (call_exit : Nat)
    (audio_file video_file : Option String) (disk : List String) :
    Except PyError (List String) :=
  match audio_file, video_file with
  | some af, some vf =>
    if af ∈ disk ∧ vf ∈ disk then
      let result := (disk.erase af).erase vf
      .ok result
    else
      .error (.ValueError
        "Error: unable to find specified audio and video files to be combined.")
  | _, _ =>
    .error (.ValueError
      "Error: must download_audio_video() before calling combine_audio_video()")

/-- The three phases each job goes through in `__main__`. -/
inductive Phase where
  | configure
  | download
  | mux
deriving DecidableEq

/-- The order in which `__main__` (lines 304-322) touches its jobs: one
loop configuring every job (construction + `configure_quality`), then one
loop running every job's `download_audio_video`, then one loop running
every job's `combine_audio_video`.  `n` is the number of rows of the batch
file; entry `(i, p)` records that phase `p` of job `i` runs at that point. -/
def batch_trace (n : Nat) : List (Nat × Phase) :=
  ((List.range n).map (fun i => (i, Phase.configure))) ++
  ((List.range n).map (fun i => (i, Phase.download))) ++
  ((List.range n).map (fun i => (i, Phase.mux)))

/-- The audio selection-and-binding pipeline of `configure_quality`
(lines 175-188): pick a bitrate, then bind the rendition carrying it. -/
def configure_audio (menu : List String → String → Nat)
    (audio_quality : Option AudioQuality) (m : MasterJson) :
    Except PyError AudioRendition :=
  match process_audio menu audio_quality m with
  | .error e => .error e
  | .ok bitrate => set_audio m bitrate

/-- The video selection-and-binding pipeline of `configure_quality`
(lines 190-218): pick a height, then bind the rendition carrying it. -/
def configure_video (menu : List String → String → Nat)
    (interactive_fallback : Bool) (video_quality : Option VideoQuality)
    (m : MasterJson) : Except PyError VideoRendition :=
  match process_video menu interactive_fallback video_quality m with
  | .error e => .error e
  | .ok height => set_video m height

/-! ## Concrete fixtures used by witnesses and counterexamples -/

/-- A segment fragment used by the fixtures. -/
def exSeg : Segment := ⟨"seg-0.m4s"⟩

/-- Audio rendition: 44100 Hz at 128000 bit/s. -/
def exAud128 : AudioRendition := ⟨"a128", 44100, 128000, "a128/", "aQ==", [exSeg]⟩

/-- Audio rendition: 48000 Hz at 64000 bit/s.  Note its sample rate is
higher than `exAud128`'s while its bitrate is lower. -/
def exAud64 : AudioRendition := ⟨"a64", 48000, 64000, "a64/", "aQ==", [exSeg]⟩

/-- Audio rendition: 32000 Hz at 256000 bit/s. -/
def exAud256 : AudioRendition := ⟨"a256", 32000, 256000, "a256/", "aQ==", [exSeg]⟩

/-- Video rendition: 640x360. -/
def exVid360 : VideoRendition := ⟨"v360", 640, 360, "v360/", "aQ==", [exSeg]⟩

/-- Video rendition: 1280x720. -/
def exVid720 : VideoRendition := ⟨"v720", 1280, 720, "v720/", "aQ==", [exSeg]⟩

/-- Video rendition: 1296x728 (within 5% of 720 but not equal to it). -/
def exVid728 : VideoRendition := ⟨"v728", 1296, 728, "v728/", "aQ==", [exSeg]⟩

/-- A manifest with two video and two audio renditions and a shared
`base_url`. -/
def exManifest : MasterJson :=
  ⟨some "../", [exVid360, exVid720], [exAud128, exAud64]⟩

/-- A manifest whose only near-720 height is 728 (fuzzy-match fixture). -/
def exManifestFuzzy : MasterJson :=
  ⟨some "../", [exVid360, exVid728], [exAud128, exAud64]⟩

/-- A manifest with a single audio rendition. -/
def exManifestOneAudio : MasterJson :=
  ⟨some "../", [exVid720], [exAud128]⟩

/-- A manifest without the optional shared `base_url` key. -/
def exManifestNoBase : MasterJson :=
  ⟨none, [exVid720], [exAud128]⟩

/-- A menu oracle that always picks the first option. -/
def exMenu : List String → String → Nat := fun _ _ => 0

/-- A fetch oracle: status 200 everywhere, body bytes determined by the
URL. -/
def exFetch : String → Nat × List Nat :=
  fun u => (200, if u = "b/a128/seg-0.m4s" then [7, 8] else [9])

/-! ## Generic lemmas about the helper functions -/

theorem firstIdx_map {α β : Type} (f : α → β) (p : β → Bool) (l : List α) :
    firstIdx p (l.map f) = firstIdx (fun a => p (f a)) l := by
  induction l with
  | nil => rfl
  | cons a t ih => simp only [List.map_cons, firstIdx, ih]

theorem firstIdx_none {α : Type} {p : α → Bool} {l : List α} :
    firstIdx p l = none ↔ ∀ a ∈ l, p a = false := by
  induction l with
  | nil => simp [firstIdx]
  | cons a t ih =>
    by_cases h : p a
    · simp [firstIdx, h]
    · simp [firstIdx, h, ih]

theorem firstIdx_some {α : Type} {p : α → Bool} {l : List α} {i : Nat}
    (h : firstIdx p l = some i) :
    ∃ a, l.get? i = some a ∧ p a = true ∧ l.find? p = some a := by
  induction l generalizing i with
  | nil => simp [firstIdx] at h
  | cons a t ih =>
    by_cases ha : p a
    · simp only [firstIdx, if_pos ha] at h
      cases h
      exact ⟨a, rfl, ha, List.find?_cons_of_pos t ha⟩
    · simp only [firstIdx, if_neg ha, Option.map_eq_some'] at h
      obtain ⟨j, hj, hji⟩ := h
      subst hji
      obtain ⟨b, hb, hpb, hf⟩ := ih hj
      exact ⟨b, by simpa [List.get?_cons_succ] using hb, hpb,
        by rw [List.find?_cons_of_neg t ha]; exact hf⟩

theorem firstIdx_min {α : Type} {p : α → Bool} {l : List α} {i k : Nat} {b : α}
    (h : firstIdx p l = some i) (hk : l.get? k = some b) (hpb : p b = true) :
    i ≤ k := by
  induction l generalizing i k with
  | nil => simp [firstIdx] at h
  | cons a t ih =>
    by_cases ha : p a
    · simp only [firstIdx, if_pos ha] at h
      cases h
      exact Nat.zero_le k
    · simp only [firstIdx, if_neg ha, Option.map_eq_some'] at h
      obtain ⟨j, hj, hji⟩ := h
      subst hji
      cases k with
      | zero =>
        rw [List.get?_cons_zero] at hk
        cases hk
        exact absurd hpb (by simpa using ha)
      | succ k =>
        rw [List.get?_cons_succ] at hk
        exact Nat.succ_le_succ (ih hj hk)

theorem firstIdx_isSome {α : Type} {p : α → Bool} {l : List α} {a : α}
    (hmem : a ∈ l) (hp : p a = true) : ∃ i, firstIdx p l = some i := by
  cases h : firstIdx p l with
  | some i => exact ⟨i, rfl⟩
  | none =>
    rw [firstIdx_none] at h
    rw [h a hmem] at hp
    cases hp

theorem sorted_get?_zero_le {l : List Nat} (hs : l.Sorted (· ≤ ·)) {a x : Nat}
    (ha : l.get? 0 = some a) (hx : x ∈ l) : a ≤ x := by
  cases l with
  | nil => cases hx
  | cons b t =>
    rw [List.get?_cons_zero] at ha
    cases ha
    rw [List.sorted_cons] at hs
    rcases List.mem_cons.mp hx with rfl | hx'
    · exact le_refl x
    · exact hs.1 x hx'

theorem mem_getLast? {α : Type} {l : List α} {b : α}
    (h : l.getLast? = some b) : b ∈ l := by
  induction l with
  | nil => cases h
  | cons a t ih =>
    cases t with
    | nil =>
      simp only [List.getLast?_singleton] at h
      cases h
      exact List.mem_singleton_self _
    | cons c u =>
      rw [List.getLast?_cons_cons] at h
      exact List.mem_cons_of_mem a (ih h)

theorem sorted_le_getLast? {l : List Nat} (hs : l.Sorted (· ≤ ·)) {b x : Nat}
    (hb : l.getLast? = some b) (hx : x ∈ l) : x ≤ b := by
  induction l with
  | nil => cases hx
  | cons a t ih =>
    rw [List.sorted_cons] at hs
    cases t with
    | nil =>
      simp only [List.getLast?_singleton] at hb
      cases hb
      rcases List.mem_cons.mp hx with rfl | hx'
      · exact le_refl _
      · cases hx'
    | cons c u =>
      rw [List.getLast?_cons_cons] at hb
      rcases List.mem_cons.mp hx with rfl | hx'
      · exact hs.1 b (mem_getLast? hb)
      · exact ih hs.2 hb hx'

theorem py_sort_sorted (l : List Nat) : (py_sort l).Sorted (· ≤ ·) :=
  List.sorted_insertionSort _ l

theorem mem_py_sort {l : List Nat} {x : Nat} : x ∈ py_sort l ↔ x ∈ l :=
  List.mem_insertionSort _

theorem py_sort_length (l : List Nat) : (py_sort l).length = l.length :=
  List.length_insertionSort _ l

theorem mem_py_sort_desc {l : List Nat} {x : Nat} : x ∈ py_sort_desc l ↔ x ∈ l := by
  rw [py_sort_desc, List.mem_reverse, mem_py_sort]

theorem py_sort_desc_length (l : List Nat) : (py_sort_desc l).length = l.length := by
  rw [py_sort_desc, List.length_reverse, py_sort_length]

/-- Binding a bitrate: when `b` occurs among the manifest's audio bitrates,
`set_audio` succeeds and returns a rendition of the manifest whose bitrate
is `b` (the first such, by Python's `list.index`). -/
theorem set_audio_spec {m : MasterJson} {b : Nat} (hb : b ∈ list_bitrates m) :
    ∃ r, set_audio m b = .ok r ∧ r ∈ m.audio ∧ r.bitrate = b := by
  obtain ⟨r0, hr0, hrb⟩ := List.mem_map.mp hb
  obtain ⟨i, hi⟩ :=
    firstIdx_isSome (p := fun r : AudioRendition => r.bitrate == b) hr0 (by simp [hrb])
  obtain ⟨r, hget, hpr, _⟩ := firstIdx_some hi
  have hpy : pyIndex (list_bitrates m) b = some i := by
    rw [pyIndex, list_bitrates, firstIdx_map]
    exact hi
  refine ⟨r, ?_, List.get?_mem hget, by simpa using hpr⟩
  simp only [set_audio, hpy, hget]

/-- Binding a height: when `h` occurs among the manifest's video heights,
`set_video` succeeds and returns exactly the first rendition of the
manifest whose height is `h`. -/
theorem set_video_spec {m : MasterJson} {h : Nat} (hh : h ∈ list_heights m) :
    ∃ r, set_video m h = .ok r ∧
      m.video.find? (fun r => r.height == h) = some r ∧
      r ∈ m.video ∧ r.height = h := by
  obtain ⟨r0, hr0, hrh⟩ := List.mem_map.mp hh
  obtain ⟨i, hi⟩ :=
    firstIdx_isSome (p := fun r : VideoRendition => r.height == h) hr0 (by simp [hrh])
  obtain ⟨r, hget, hpr, hfind⟩ := firstIdx_some hi
  have hpy : pyIndex (list_heights m) h = some i := by
    rw [pyIndex, list_heights, firstIdx_map]
    exact hi
  refine ⟨r, ?_, hfind, List.get?_mem hget, by simpa using hpr⟩
  simp only [set_video, hpy, hget]

theorem except_pure_eq_ok {ε α : Type} (a : α) :
    (pure a : Except ε α) = .ok a := rfl

theorem except_bind_error {ε α β : Type} (e : ε) (f : α → Except ε β) :
    (Except.error e : Except ε α) >>= f = .error e := rfl

theorem except_bind_ok {ε α β : Type} (a : α) (f : α → Except ε β) :
    (Except.ok a : Except ε α) >>= f = f a := rfl

theorem py_sort_ne_nil {l : List Nat} (h : l ≠ []) : py_sort l ≠ [] := by
  intro h0
  apply h
  have hlen := py_sort_length l
  rw [h0] at hlen
  exact List.length_eq_zero.mp hlen.symm

/-- The code's Nat-scaled fuzzy bound agrees with the exact rational bound
`h * 0.95 ≤ v ≤ h * 1.05` of line 202 (`0.95 = 19/20`, `1.05 = 21/20`). -/
theorem in_fuzzy_range_iff (h v : Nat) :
    in_fuzzy_range h v = true ↔
      ((h : ℚ) * (95 / 100) ≤ (v : ℚ) ∧ (v : ℚ) ≤ (h : ℚ) * (105 / 100)) := by
  rw [in_fuzzy_range, Bool.and_eq_true, decide_eq_true_eq, decide_eq_true_eq]
  constructor
  · rintro ⟨h1, h2⟩
    constructor
    · have h1q : (19 : ℚ) * h ≤ 20 * v := by exact_mod_cast h1
      linarith
    · have h2q : (20 : ℚ) * v ≤ 21 * h := by exact_mod_cast h2
      linarith
  · rintro ⟨h1, h2⟩
    constructor
    · have h1q : (19 : ℚ) * h ≤ 20 * v := by linarith
      exact_mod_cast h1q
    · have h2q : (20 : ℚ) * v ≤ 21 * h := by linarith
      exact_mod_cast h2q

/-! ## Claim C3 -/

/-- C3, counterexample: with both track files on disk and the external tool
exiting with status 1 (non-zero), `combine_audio_video` still deletes both
intermediate files and surfaces no error — contradicting the claim that on
non-zero exit the files are left in place and a `MuxError` is raised. -/
theorem c3_counterexample :
    (1 : Nat) ≠ 0 ∧
    combine_audio_video 1 (some "out_audio_a128.m4a") (some "out_video_v720.mp4")
      ["out_audio_a128.m4a", "out_video_v720.mp4"] = .ok [] :=
  ⟨by decide, rfl⟩

/-- C3, amended: whenever both track files exist on disk, the mux step
invokes the external tool, discards its exit status, and unconditionally
deletes both intermediate track files, returning success regardless of the
tool's exit status; no error tied to the exit status is surfaced and there
is no retry. -/
theorem c3_mux_deletes_unconditionally (call_exit : Nat) (af vf : String)
    (disk : List String) (ha : af ∈ disk) (hv : vf ∈ disk) :
    combine_audio_video call_exit (some af) (some vf) disk =
      .ok ((disk.erase af).erase vf) := by
  simp [combine_audio_video, ha, hv]

/-- C3 witness: the amended theorem at a concrete failing exit status. -/
theorem c3_mux_deletes_unconditionally_witness :
    combine_audio_video 2 (some "a.m4a") (some "v.mp4") ["a.m4a", "v.mp4"] =
      .ok [] :=
  c3_mux_deletes_unconditionally 2 "a.m4a" "v.mp4" ["a.m4a", "v.mp4"]
    (by decide) (by decide)

/-! ## Claim C6 -/

/-- C6, counterexample: a manifest without the optional shared `base_url`
key makes job construction fail with a `KeyError` (from
`self.master_json['base_url']`), even though every probed URL would
succeed — contradicting the claim that construction treats the missing
fragment as omitted and succeeds. -/
theorem c6_counterexample :
    generate_base_url (fun _ => 200) "http://host/m/master.json"
      exManifestNoBase = .error .KeyError :=
  rfl

/-- C6, amended: for every manifest with a non-empty video rendition list
(the spec's manifest invariant; `master_json['video'][0]` on line 70 is
read first) in which the shared `base_url` key is absent, base-URL
resolution (and hence job construction) fails with a `KeyError` rather
than treating the fragment as omitted. -/
theorem c6_missing_base_url_raises (http : String → Nat) (url : String)
    (m : MasterJson) (hv : m.video ≠ []) (h : m.base_url = none) :
    generate_base_url http url m = .error .KeyError := by
  cases hv2 : m.video with
  | nil => exact absurd hv2 hv
  | cons tv rest =>
    simp [generate_base_url, hv2, h, except_bind_ok, except_bind_error]

/-- C6 witness: the amended theorem at a concrete manifest. -/
theorem c6_missing_base_url_raises_witness :
    generate_base_url (fun _ => 404) "u/m.json" exManifestNoBase =
      .error .KeyError :=
  c6_missing_base_url_raises (fun _ => 404) "u/m.json" exManifestNoBase
    (by decide) rfl

/-! ## Claim C10 -/

/-- C10: for every manifest with exactly one audio rendition, requesting
the MED audio tier does not bind a rendition: `bitrates[1]` is out of range
for the singleton ascending bitrate list, so `configure_quality` fails with
an `IndexError` (only HI is count-independent). -/
theorem c10_med_singleton (menu : List String → String → Nat)
    (interactive_fallback : Bool) (vq : VideoQuality) (m : MasterJson)
    (h1 : m.audio.length = 1) :
    configure_quality menu interactive_fallback (some .MED) (some vq) m =
      .error .IndexError := by
  have hlen : (py_sort (list_bitrates m)).length = 1 := by
    rw [py_sort_length, list_bitrates, List.length_map, h1]
  have hb : (py_sort (list_bitrates m))[1]? = none := by
    rw [List.getElem?_eq_none_iff, hlen]
  have hpa : process_audio menu (some .MED) m = .error .IndexError := by
    simp [process_audio, AudioQuality.value, hb]
  simp [configure_quality, hpa, except_bind_error]

/-- C10 witness: a manifest with one audio rendition and the MED tier. -/
theorem c10_med_singleton_witness :
    configure_quality exMenu false (some .MED) (some .V720)
      exManifestOneAudio = .error .IndexError :=
  c10_med_singleton exMenu false .V720 exManifestOneAudio rfl

/-! ## Claim C4 -/

/-- C4: base-URL resolution probes exactly the URL formed from the manifest
directory, the manifest's shared `base_url`, the first video rendition's
`base_url` and that rendition's first segment URL: the resolved base is
`trimmed ++ shared` when the probe returns 200 and `trimmed` otherwise, the
decision depends on the probe URL's status only, and every segment URL the
job later constructs is `resolved ++ rendition.base_url ++ segment.url`
(so it includes the shared fragment exactly when the probe succeeded).  The
decision is computed once at construction (`generate_base_url` is called
only from `__init__` and its result stored in `self.base_url`). -/
theorem c4_base_url_resolution (http : String → Nat) (master_json_url : String)
    (m : MasterJson) (mb : String) (tv : VideoRendition)
    (vrest : List VideoRendition) (s0 : Segment) (srest : List Segment)
    (hmb : m.base_url = some mb) (hv : m.video = tv :: vrest)
    (hs : tv.segments = s0 :: srest) :
    (http (trimmed_url master_json_url ++ mb ++ tv.base_url ++ s0.url) = 200 →
      generate_base_url http master_json_url m =
        .ok (trimmed_url master_json_url ++ mb)) ∧
    (http (trimmed_url master_json_url ++ mb ++ tv.base_url ++ s0.url) ≠ 200 →
      generate_base_url http master_json_url m =
        .ok (trimmed_url master_json_url)) ∧
    (∀ http2 : String → Nat,
      http2 (trimmed_url master_json_url ++ mb ++ tv.base_url ++ s0.url) =
        http (trimmed_url master_json_url ++ mb ++ tv.base_url ++ s0.url) →
      generate_base_url http2 master_json_url m =
        generate_base_url http master_json_url m) ∧
    (∀ b rend_base s, segment_url b rend_base s = b ++ rend_base ++ s.url) := by
  refine ⟨?_, ?_, ?_, fun _ _ _ => rfl⟩
  · intro hp
    simp [generate_base_url, hmb, hv, hs, hp, except_bind_ok, except_pure_eq_ok]
  · intro hp
    simp [generate_base_url, hmb, hv, hs, hp, except_bind_ok, except_pure_eq_ok]
  · intro http2 hagree
    simp [generate_base_url, hmb, hv, hs, hagree, except_bind_ok, except_pure_eq_ok]

/-- C4 witness: a succeeding and a failing probe on a concrete manifest. -/
theorem c4_base_url_resolution_witness :
    generate_base_url (fun _ => 200) "http://h/m/master.json" exManifest =
      .ok ("http://h/m/" ++ "../") ∧
    generate_base_url (fun _ => 404) "http://h/m/master.json" exManifest =
      .ok "http://h/m/" := by
  constructor
  · exact (c4_base_url_resolution (fun _ => 200) "http://h/m/master.json"
      exManifest "../" exVid360 [exVid720] exSeg [] rfl rfl rfl).1 rfl
  · exact (c4_base_url_resolution (fun _ => 404) "http://h/m/master.json"
      exManifest "../" exVid360 [exVid720] exSeg [] rfl rfl rfl).2.1 (by decide)

/-! ## Claim C8 -/

/-- Full case analysis of the manifest fetch step: 410 prints the expired
message and raises; any other 4xx/5xx prints the generic message and
raises; 200 prints nothing and parses; every other status prints the
generic message but `raise_for_status` does not raise, so the body is
parsed anyway. -/
theorem fetch_master_cases (status : Nat) (parse : Except PyError MasterJson) :
    fetch_master status parse =
      if status = 410 then
        ([s!"ERROR: http code [{status}]. master.json expired, please update url and rerun."],
         .error (.HTTPError status))
      else if 400 ≤ status ∧ status < 600 then
        ([s!"ERROR: received http code [{status}] when downloading master.json"],
         .error (.HTTPError status))
      else if status = 200 then ([], parse)
      else
        ([s!"ERROR: received http code [{status}] when downloading master.json"],
         parse) := by
  simp only [fetch_master, fetch_master_rest, raise_for_status]
  split_ifs <;> first | rfl | omega

/-- C8, counterexample: status 304 is not a success status, yet the
manifest fetch does not fail: the generic error line is printed but
`raise_for_status` raises only for 4xx/5xx, so the body is parsed and the
job proceeds — contradicting "fails exactly when the HTTP response status
is not success". -/
theorem c8_counterexample :
    (304 : Nat) / 100 ≠ 2 ∧ (fetch_master 304 (.ok exManifest)).2 = .ok exManifest :=
  ⟨by decide, rfl⟩

/-- C8, amended: fetching the manifest fails exactly when the response
status is a 4xx/5xx status (for any non-200 status outside that range an
error line is printed but the fetch still succeeds); the failure
distinguishes 410 by a dedicated "expired, please update url" message,
while every other failing status produces the generic message. -/
theorem c8_fetch_failure_condition (status : Nat) (mj : MasterJson) :
    ((fetch_master status (.ok mj)).2 = .error (.HTTPError status) ↔
      400 ≤ status ∧ status < 600) ∧
    (¬(400 ≤ status ∧ status < 600) →
      (fetch_master status (.ok mj)).2 = .ok mj) ∧
    (status = 410 → (fetch_master status (.ok mj)).1 =
      ["ERROR: http code [410]. master.json expired, please update url and rerun."]) ∧
    (400 ≤ status → status < 600 → status ≠ 410 →
      (fetch_master status (.ok mj)).1 =
        [s!"ERROR: received http code [{status}] when downloading master.json"]) := by
  rw [fetch_master_cases]
  refine ⟨?_, ?_, ?_, ?_⟩
  · constructor
    · intro h
      by_cases h410 : status = 410
      · omega
      · by_cases h4 : 400 ≤ status ∧ status < 600
        · exact h4
        · by_cases h200 : status = 200
          · rw [if_neg h410, if_neg h4, if_pos h200] at h
            exact absurd h (by simp)
          · rw [if_neg h410, if_neg h4, if_neg h200] at h
            exact absurd h (by simp)
    · intro h4
      by_cases h410 : status = 410
      · simp [h410]
      · simp [h410, h4]
  · intro h4
    have h410 : status ≠ 410 := by omega
    by_cases h200 : status = 200
    · simp [h410, h4, h200]
    · simp [h410, h4, h200]
  · intro h410
    subst h410
    rfl
  · intro hlo hhi h410
    simp [h410, And.intro hlo hhi]

/-- C8 witness: the amended theorem at a failing (404) status. -/
theorem c8_fetch_failure_condition_witness :
    (fetch_master 404 (.ok exManifest)).2 = .error (.HTTPError 404) ∧
    (fetch_master 410 (.ok exManifest)).1 =
      ["ERROR: http code [410]. master.json expired, please update url and rerun."] :=
  ⟨(c8_fetch_failure_condition 404 exManifest).1.mpr (by omega),
   (c8_fetch_failure_condition 410 exManifest).2.2.1 rfl⟩

/-! ## Claim C9 -/

/-- Position-by-position description of the batch trace: positions
`[0, n)` are the configuration phase, `[n, 2n)` the download phase, and
`[2n, 3n)` the mux phase, each visiting jobs `0, …, n-1` in order. -/
theorem batch_trace_get? (n p : Nat) :
    (batch_trace n).get? p =
      if p < n then some (p, Phase.configure)
      else if p < 2 * n then some (p - n, Phase.download)
      else if p < 3 * n then some (p - 2 * n, Phase.mux)
      else none := by
  have lenA : ((List.range n).map (fun i => (i, Phase.configure))).length = n := by simp
  have lenAB : (((List.range n).map (fun i => (i, Phase.configure))) ++
      ((List.range n).map (fun i => (i, Phase.download)))).length = n + n := by simp
  rw [batch_trace]
  by_cases h2 : p < 2 * n
  · rw [List.get?_append (by rw [lenAB]; omega)]
    by_cases h1 : p < n
    · rw [List.get?_append (by rw [lenA]; omega)]
      simp [List.get?_map, List.get?_range h1, h1]
    · rw [List.get?_append_right (by rw [lenA]; omega), lenA]
      have hpn : p - n < n := by omega
      rw [List.get?_map, List.get?_range hpn]
      simp [h1, h2]
  · rw [List.get?_append_right (by rw [lenAB]; omega), lenAB]
    by_cases h3 : p < 3 * n
    · have hpn2 : p - (n + n) < n := by omega
      rw [List.get?_map, List.get?_range hpn2]
      have h1 : ¬p < n := by omega
      have heq : p - (n + n) = p - 2 * n := by omega
      rw [heq]
      simp [h1, h2, h3]
    · rw [List.get?_eq_none.mpr (by simp; omega)]
      have h1 : ¬p < n := by omega
      simp [h1, h2, h3]

/-- C9: in a batch of `n` jobs, `__main__` completes every job's
configuration (manifest fetch and quality selection) before any job's
download begins, and every job's download before any job's mux begins;
moreover each job `i < n` has all three phase events, so within one job the
phases run configure, then download, then mux. -/
theorem c9_batch_phase_order (n p q i j : Nat) :
    ((batch_trace n).get? p = some (i, Phase.configure) →
      (batch_trace n).get? q = some (j, Phase.download) → p < q) ∧
    ((batch_trace n).get? p = some (i, Phase.download) →
      (batch_trace n).get? q = some (j, Phase.mux) → p < q) ∧
    (i < n →
      (i, Phase.configure) ∈ batch_trace n ∧
      (i, Phase.download) ∈ batch_trace n ∧
      (i, Phase.mux) ∈ batch_trace n) := by
  refine ⟨?_, ?_, ?_⟩
  · intro hp hq
    rw [batch_trace_get?] at hp hq
    split_ifs at hp hq <;> simp_all <;> omega
  · intro hp hq
    rw [batch_trace_get?] at hp hq
    split_ifs at hp hq <;> simp_all <;> omega
  · intro hi
    refine ⟨?_, ?_, ?_⟩
    · exact List.mem_append_left _ (List.mem_append_left _
        (List.mem_map.mpr ⟨i, List.mem_range.mpr hi, rfl⟩))
    · exact List.mem_append_left _ (List.mem_append_right _
        (List.mem_map.mpr ⟨i, List.mem_range.mpr hi, rfl⟩))
    · exact List.mem_append_right _
        (List.mem_map.mpr ⟨i, List.mem_range.mpr hi, rfl⟩)

/-- C9 witness: a two-job batch, concrete positions. -/
theorem c9_batch_phase_order_witness :
    (batch_trace 2).get? 1 = some (1, Phase.configure) ∧
    (batch_trace 2).get? 2 = some (0, Phase.download) ∧
    (1 : Nat) < 2 ∧ (0, Phase.mux) ∈ batch_trace 2 :=
  ⟨rfl, rfl, (c9_batch_phase_order 2 1 2 1 0).1 rfl rfl,
   ((c9_batch_phase_order 2 1 2 0 0).2.2 (by decide)).2.2⟩

/-! ## Claim C2 -/

/-- C2: explicit audio tier selection sorts the manifest's bitrates
ascending and picks LOW → the minimum (index 0), MED → the second-lowest
(index 1, stated for manifests that have one), and HI → the maximum
regardless of how many audio renditions exist, binding a rendition of the
manifest that carries the selected bitrate. -/
theorem c2_audio_tier_selection (m : MasterJson)
    (menu : List String → String → Nat) (hne : m.audio ≠ []) :
    (∃ r, configure_audio menu (some .LOW) m = .ok r ∧ r ∈ m.audio ∧
      ∀ q ∈ m.audio, r.bitrate ≤ q.bitrate) ∧
    (2 ≤ m.audio.length →
      ∃ r, configure_audio menu (some .MED) m = .ok r ∧ r ∈ m.audio ∧
        (py_sort (list_bitrates m)).get? 1 = some r.bitrate) ∧
    (∃ r, configure_audio menu (some .HI) m = .ok r ∧ r ∈ m.audio ∧
      ∀ q ∈ m.audio, q.bitrate ≤ r.bitrate) := by
  have hbl : list_bitrates m ≠ [] := by
    simpa [list_bitrates, List.map_eq_nil] using hne
  refine ⟨?_, ?_, ?_⟩
  · -- LOW: head of the ascending sort is the minimum
    cases hsort : py_sort (list_bitrates m) with
    | nil => exact absurd hsort (py_sort_ne_nil hbl)
    | cons b0 t =>
      have hget0 : (py_sort (list_bitrates m)).get? 0 = some b0 := by
        rw [hsort]; rfl
      have hpa : process_audio menu (some .LOW) m = .ok b0 := by
        have hget0' : (py_sort (list_bitrates m))[0]? = some b0 := by
          rw [← List.get?_eq_getElem?]; exact hget0
        simp [process_audio, AudioQuality.value, hget0']
      have hb0 : b0 ∈ list_bitrates m :=
        mem_py_sort.mp (by rw [hsort]; exact List.mem_cons_self _ _)
      obtain ⟨r, hset, hrm, hrb⟩ := set_audio_spec hb0
      refine ⟨r, ?_, hrm, ?_⟩
      · simp [configure_audio, hpa, hset]
      · intro q hq
        rw [hrb]
        exact sorted_get?_zero_le (py_sort_sorted _) hget0
          (mem_py_sort.mpr (List.mem_map_of_mem _ hq))
  · -- MED: index 1 of the ascending sort
    intro h2
    have hlt : 1 < (py_sort (list_bitrates m)).length := by
      rw [py_sort_length, list_bitrates, List.length_map]; omega
    have hget1 := List.get?_eq_get hlt
    have hpa : process_audio menu (some .MED) m =
        .ok ((py_sort (list_bitrates m)).get ⟨1, hlt⟩) := by
      have hget1' : (py_sort (list_bitrates m))[1]? =
          some ((py_sort (list_bitrates m)).get ⟨1, hlt⟩) := by
        rw [← List.get?_eq_getElem?]; exact hget1
      simp [process_audio, AudioQuality.value, hget1']
    have hb1 : (py_sort (list_bitrates m)).get ⟨1, hlt⟩ ∈ list_bitrates m :=
      mem_py_sort.mp (List.get_mem _ _ _)
    obtain ⟨r, hset, hrm, hrb⟩ := set_audio_spec hb1
    refine ⟨r, ?_, hrm, ?_⟩
    · simp only [configure_audio, hpa]
      exact hset
    · rw [hget1, hrb]
  · -- HI: last element of the ascending sort is the maximum
    have hne2 : py_sort (list_bitrates m) ≠ [] := py_sort_ne_nil hbl
    have hlast : (py_sort (list_bitrates m)).getLast? =
        some ((py_sort (list_bitrates m)).getLast hne2) :=
      List.getLast?_eq_getLast _ hne2
    have hpa : process_audio menu (some .HI) m =
        .ok ((py_sort (list_bitrates m)).getLast hne2) := by
      simp [process_audio, hlast]
    have hbm : (py_sort (list_bitrates m)).getLast hne2 ∈ list_bitrates m :=
      mem_py_sort.mp (List.getLast_mem hne2)
    obtain ⟨r, hset, hrm, hrb⟩ := set_audio_spec hbm
    refine ⟨r, ?_, hrm, ?_⟩
    · simp [configure_audio, hpa, hset]
    · intro q hq
      rw [hrb]
      exact sorted_le_getLast? (py_sort_sorted _) hlast
        (mem_py_sort.mpr (List.mem_map_of_mem _ hq))

/-- C2 witness: the theorem at a concrete two-rendition manifest. -/
theorem c2_audio_tier_selection_witness :
    (∃ r, configure_audio exMenu (some .LOW) exManifest = .ok r ∧
      r ∈ exManifest.audio ∧ ∀ q ∈ exManifest.audio, r.bitrate ≤ q.bitrate) ∧
    (2 ≤ exManifest.audio.length →
      ∃ r, configure_audio exMenu (some .MED) exManifest = .ok r ∧
        r ∈ exManifest.audio ∧
        (py_sort (list_bitrates exManifest)).get? 1 = some r.bitrate) ∧
    (∃ r, configure_audio exMenu (some .HI) exManifest = .ok r ∧
      r ∈ exManifest.audio ∧ ∀ q ∈ exManifest.audio, q.bitrate ≤ r.bitrate) :=
  c2_audio_tier_selection exManifest exMenu (by decide)

/-! ## Claim C5 -/

/-- The segment loop, when every fetch returns 200, appends exactly the
response bodies in manifest order after the bytes already written. -/
theorem write_segments_ok (fetch : String → Nat × List Nat)
    (base_url rend_base : String) (segs : List Segment) (file : List Nat)
    (h : ∀ s ∈ segs, (fetch (segment_url base_url rend_base s)).1 = 200) :
    write_segments fetch base_url rend_base file segs =
      .ok (file ++
        (segs.map (fun s => (fetch (segment_url base_url rend_base s)).2)).join) := by
  induction segs generalizing file with
  | nil => simp [write_segments]
  | cons s rest ih =>
    have h200 := h s (List.mem_cons_self _ _)
    have hrest : ∀ s2 ∈ rest,
        (fetch (segment_url base_url rend_base s2)).1 = 200 :=
      fun s2 hs2 => h s2 (List.mem_cons_of_mem _ hs2)
    rw [write_segments, if_neg (by rw [h200]; exact fun hc => hc rfl)]
    rw [ih _ hrest]
    simp [List.append_assoc]

/-- C5: for a configured job whose segment fetches all succeed, each
assembled track's bytes are exactly the decoded initialization segment
followed by the concatenation of every segment's response body in manifest
order (no gaps, no reordering), for the audio track and the video track
alike. -/
theorem c5_track_bytes (fetch : String → Nat × List Nat)
    (decode : String → List Nat) (base_url : String)
    (audio_json : AudioRendition) (video_json : VideoRendition)
    (ha : ∀ s ∈ audio_json.segments,
      (fetch (segment_url base_url audio_json.base_url s)).1 = 200)
    (hv : ∀ s ∈ video_json.segments,
      (fetch (segment_url base_url video_json.base_url s)).1 = 200) :
    download_audio_video_bytes fetch decode base_url audio_json video_json =
      .ok
        (decode audio_json.init_segment ++
          (audio_json.segments.map
            (fun s => (fetch (segment_url base_url audio_json.base_url s)).2)).join,
         decode video_json.init_segment ++
          (video_json.segments.map
            (fun s => (fetch (segment_url base_url video_json.base_url s)).2)).join) := by
  rw [download_audio_video_bytes, assemble_track, assemble_track,
    write_segments_ok fetch base_url audio_json.base_url audio_json.segments
      (decode audio_json.init_segment) ha,
    write_segments_ok fetch base_url video_json.base_url video_json.segments
      (decode video_json.init_segment) hv]
  rfl

/-- C5 witness: concrete two-track download with an all-200 fetch oracle. -/
theorem c5_track_bytes_witness :
    download_audio_video_bytes exFetch (fun _ => [1, 2]) "b/" exAud128 exVid720 =
      .ok ([1, 2, 7, 8], [1, 2, 9]) :=
  c5_track_bytes exFetch (fun _ => [1, 2]) "b/" exAud128 exVid720
    (fun _ _ => rfl) (fun _ _ => rfl)

/-! ## Claim C7 -/

/-- C7, counterexample: with audio renditions (44100 Hz, 128000 b/s) and
(48000 Hz, 64000 b/s), the interactive audio menu shows
"48000/128000" — the two fields sorted independently and zipped — which is
not the field pair of any rendition of the manifest, contradicting the
claim that each displayed option's field pair corresponds to an actual
rendition. -/
theorem c7_counterexample :
    audio_menu_options exManifest = ["48000/128000", "44100/64000"] ∧
    ∀ r ∈ exManifest.audio,
      ¬(r.sample_rate = 48000 ∧ r.bitrate = 128000) := by
  refine ⟨rfl, ?_⟩
  decide

/-- C7, amended: the interactive audio prompt displays the sample rates
sorted descending zipped positionally with the bitrates sorted descending
(the displayed pairs need not correspond to any single rendition), and the
interactive video prompt likewise zips widths and heights sorted
descending independently; a valid menu choice at index `i` still binds a
rendition from the manifest's own list: the first rendition whose bitrate
(resp. height) equals entry `i` of the descending-sorted bitrate (resp.
height) list. -/
theorem c7_interactive_menus (m : MasterJson)
    (menu : List String → String → Nat)
    (hia : menu (audio_menu_options m) "Audio Quality? (sample_rate/bitrate)" <
      m.audio.length)
    (hiv : menu (video_menu_options m) "Video Quality? (width x height)" <
      m.video.length) :
    (audio_menu_options m = (List.range m.audio.length).map (fun index =>
      s!"{(py_sort_desc (list_sample_rates m)).getD index 0}/{(py_sort_desc (list_bitrates m)).getD index 0}")) ∧
    (∃ r, configure_audio menu none m = .ok r ∧ r ∈ m.audio ∧
      r.bitrate = (py_sort_desc (list_bitrates m)).getD
        (menu (audio_menu_options m) "Audio Quality? (sample_rate/bitrate)") 0) ∧
    (video_menu_options m = (List.range m.video.length).map (fun index =>
      s!"{(py_sort_desc (list_widths m)).getD index 0}x{(py_sort_desc (list_heights m)).getD index 0}")) ∧
    (∃ r, configure_video menu true none m = .ok r ∧ r ∈ m.video ∧
      r.height = (py_sort_desc (list_heights m)).getD
        (menu (video_menu_options m) "Video Quality? (width x height)") 0) := by
  have hlens : (py_sort_desc (list_sample_rates m)).length = m.audio.length := by
    rw [py_sort_desc_length, list_sample_rates, List.length_map]
  have hlenb : (py_sort_desc (list_bitrates m)).length = m.audio.length := by
    rw [py_sort_desc_length, list_bitrates, List.length_map]
  have hlenh : (py_sort_desc (list_heights m)).length = m.video.length := by
    rw [py_sort_desc_length, list_heights, List.length_map]
  have hlenw : (py_sort_desc (list_widths m)).length = m.video.length := by
    rw [py_sort_desc_length, list_widths, List.length_map]
  refine ⟨?_, ?_, ?_, ?_⟩
  · rw [audio_menu_options, hlens]
  · have hidx : menu (audio_menu_options m) "Audio Quality? (sample_rate/bitrate)" <
        (py_sort_desc (list_bitrates m)).length := by rw [hlenb]; exact hia
    have hget := List.get?_eq_get hidx
    have hask : ask_audio_quality menu m =
        .ok ((py_sort_desc (list_bitrates m)).get ⟨_, hidx⟩) := by
      rw [ask_audio_quality, hget]
    have hmem : (py_sort_desc (list_bitrates m)).get ⟨_, hidx⟩ ∈ list_bitrates m :=
      mem_py_sort_desc.mp (List.get_mem _ _ _)
    obtain ⟨r, hset, hrm, hrb⟩ := set_audio_spec hmem
    refine ⟨r, ?_, hrm, ?_⟩
    · simp only [configure_audio, process_audio, hask]
      exact hset
    · rw [hrb, List.getD_eq_get?, hget]
      rfl
  · rw [video_menu_options, hlenh]
  · have hidx : menu (video_menu_options m) "Video Quality? (width x height)" <
        (py_sort_desc (list_heights m)).length := by rw [hlenh]; exact hiv
    have hget := List.get?_eq_get hidx
    have hask : ask_video_quality menu m =
        .ok ((py_sort_desc (list_heights m)).get ⟨_, hidx⟩) := by
      rw [ask_video_quality, hget]
    have hmem : (py_sort_desc (list_heights m)).get ⟨_, hidx⟩ ∈ list_heights m :=
      mem_py_sort_desc.mp (List.get_mem _ _ _)
    obtain ⟨r, hset, _, hrm, hrh⟩ := set_video_spec hmem
    refine ⟨r, ?_, hrm, ?_⟩
    · simp only [configure_video, process_video, hask]
      exact hset
    · rw [hrh, List.getD_eq_get?, hget]
      rfl

/-- C7 witness: the amended theorem's audio binding at a concrete manifest
and the always-pick-first menu oracle. -/
theorem c7_interactive_menus_witness :
    ∃ r, configure_audio exMenu none exManifest = .ok r ∧
      r ∈ exManifest.audio ∧
      r.bitrate = (py_sort_desc (list_bitrates exManifest)).getD
        (exMenu (audio_menu_options exManifest)
          "Audio Quality? (sample_rate/bitrate)") 0 :=
  (c7_interactive_menus exManifest exMenu (by decide) (by decide)).2.1

/-! ## Claim C1 -/

/-- When no rendition's height equals `v`, the height list does not
contain `v`. -/
theorem not_mem_heights {m : MasterJson} {v : Nat}
    (hnone : m.video.find? (fun r => r.height == v) = none) :
    v ∉ list_heights m := by
  intro hmem
  obtain ⟨r0, hr0, hh⟩ := List.mem_map.mp hmem
  have hf := List.find?_eq_none.mp hnone r0 hr0
  simp [hh] at hf

/-- C1: non-interactive video selection with requested height `H` returns
the (first) rendition whose height equals `H` whenever one exists;
otherwise it scans renditions in manifest order and selects the first
whose height `h` satisfies `0.95·h ≤ H ≤ 1.05·h` (inclusive, see
`in_fuzzy_range_iff`); and when no rendition satisfies the fuzzy bound it
fails with a `ValueError` naming the requested height. -/
theorem c1_video_selection (m : MasterJson) (menu : List String → String → Nat)
    (vq : VideoQuality) (hvmax : vq ≠ VideoQuality.VMAX) (hne : m.video ≠ []) :
    (∀ r, m.video.find? (fun r => r.height == vq.value) = some r →
      configure_video menu false (some vq) m = .ok r) ∧
    (m.video.find? (fun r => r.height == vq.value) = none →
      ∀ r, m.video.find? (fun r => in_fuzzy_range r.height vq.value) = some r →
        configure_video menu false (some vq) m = .ok r) ∧
    (m.video.find? (fun r => r.height == vq.value) = none →
      m.video.find? (fun r => in_fuzzy_range r.height vq.value) = none →
      configure_video menu false (some vq) m =
        .error (.ValueError s!"Unable to find video quality matching {vq.value}p")) := by
  refine ⟨?_, ?_, ?_⟩
  · intro r hfind
    have hr := List.mem_of_find?_eq_some hfind
    have hh : r.height = vq.value := by
      have hbeq := List.find?_some hfind
      simpa using hbeq
    have hmem : vq.value ∈ list_heights m := hh ▸ List.mem_map_of_mem _ hr
    have hpv : process_video menu false (some vq) m = .ok vq.value := by
      simp [process_video, hvmax, hmem]
    obtain ⟨r2, hset, hfind2, _, _⟩ := set_video_spec hmem
    have hr2 : r2 = r := by
      rw [hfind] at hfind2
      exact (Option.some.inj hfind2).symm
    subst hr2
    simp only [configure_video, hpv]
    exact hset
  · intro hnone r hfuzzy
    have hnm := not_mem_heights hnone
    have hrmem := List.mem_of_find?_eq_some hfuzzy
    have hp : in_fuzzy_range r.height vq.value = true :=
      List.find?_some (p := fun q : VideoRendition => in_fuzzy_range q.height vq.value)
        hfuzzy
    obtain ⟨i, hi⟩ := firstIdx_isSome
      (p := fun q : VideoRendition => in_fuzzy_range q.height vq.value) hrmem hp
    obtain ⟨a, hai, hpa, hfind2⟩ := firstIdx_some hi
    have har : a = r := by
      rw [hfuzzy] at hfind2
      exact (Option.some.inj hfind2).symm
    subst har
    have hfp : fuzzy_position (list_heights m) vq.value = some i := by
      rw [fuzzy_position, list_heights, firstIdx_map]
      exact hi
    have hhi : (list_heights m).get? i = some a.height := by
      rw [list_heights, List.get?_map, hai]
      rfl
    have hpv : process_video menu false (some vq) m = .ok a.height := by
      have hhi2 : (list_heights m)[i]? = some a.height := by
        rw [← List.get?_eq_getElem?]
        exact hhi
      simp [process_video, hvmax, hnm, hfp, hhi2]
    obtain ⟨j, hj⟩ := firstIdx_isSome
      (p := fun q : VideoRendition => q.height == a.height) hrmem (by simp)
    obtain ⟨b, hbj, hpb, _⟩ := firstIdx_some hj
    have hji : j ≤ i := firstIdx_min hj hai (by simp)
    have hij : i ≤ j := by
      refine firstIdx_min hi hbj ?_
      have hbh : b.height = a.height := by simpa using hpb
      rw [hbh]
      exact hp
    have hij2 : i = j := Nat.le_antisymm hij hji
    subst hij2
    have hpy : pyIndex (list_heights m) a.height = some i := by
      rw [pyIndex, list_heights, firstIdx_map]
      exact hj
    have hset : set_video m a.height = .ok a := by
      simp only [set_video, hpy, hai]
    simp only [configure_video, hpv]
    exact hset
  · intro hnone hfz
    have hnm := not_mem_heights hnone
    have hfp : fuzzy_position (list_heights m) vq.value = none := by
      rw [fuzzy_position, list_heights, firstIdx_map, firstIdx_none]
      intro r0 hr0
      have hf := List.find?_eq_none.mp hfz r0 hr0
      simpa using hf
    have hpv : process_video menu false (some vq) m =
        .error (.ValueError s!"Unable to find video quality matching {vq.value}p") := by
      simp [process_video, hvmax, hnm, hfp]
    simp only [configure_video, hpv]

/-- C1 witness: exact match, fuzzy match and failure on concrete
manifests. -/
theorem c1_video_selection_witness :
    configure_video exMenu false (some .V720) exManifest = .ok exVid720 ∧
    configure_video exMenu false (some .V720) exManifestFuzzy = .ok exVid728 ∧
    configure_video exMenu false (some .V540) exManifest =
      .error (.ValueError "Unable to find video quality matching 540p") :=
  ⟨(c1_video_selection exManifest exMenu .V720 (by decide) (by decide)).1
      exVid720 rfl,
   (c1_video_selection exManifestFuzzy exMenu .V720 (by decide) (by decide)).2.1
      rfl exVid728 rfl,
   (c1_video_selection exManifest exMenu .V540 (by decide) (by decide)).2.2
      rfl rfl⟩
